import Mathlib

/-!
Shallow embedding of the room/game state machine of `src/server.js`
(room-lobby party-game server).

JavaScript `Map`s (insertion-ordered, unique keys) are modelled as
association lists together with `mget` / `mset` / `mdel` that mirror
`Map.get` / `Map.set` / `Map.delete`: `mset` updates an existing key in
place and appends a fresh key, `mdel` removes the entry of a key.
JavaScript numbers are modelled as rationals (`ℚ`); a value that does not
parse to a finite number is modelled as `none`.  The asynchronous
AnswerOracle is modelled as an externally supplied `OracleOutcome`, and
the `game:setPrompt` handler is split at the `await` point into
`setPromptStart` (synchronous validation before the oracle call) and
`setPromptResume` (the continuation that runs when the oracle answers).
`Math.random()`-driven chooser selection is modelled by an externally
supplied index into the roster array.
-/

namespace RoomLobby

abbrev ConnId := String

/-- `mget m k` is `m.get(k)` on a JS `Map` modelled as an assoc list. -/
def mget {α β : Type} [DecidableEq α] (m : List (α × β)) (k : α) : Option β :=
  match m with
  | [] => none
  | e :: rest => if e.1 = k then some e.2 else mget rest k

/-- `mset m k v` is `m.set(k, v)`: update in place when `k` is present,
append `(k, v)` otherwise (JS `Map` insertion-order semantics). -/
def mset {α β : Type} [DecidableEq α] (m : List (α × β)) (k : α) (v : β) :
    List (α × β) :=
  match m with
  | [] => [(k, v)]
  | e :: rest => if e.1 = k then (k, v) :: rest else e :: mset rest k v

/-- `mdel m k` is `m.delete(k)`: remove the entry of key `k`. -/
def mdel {α β : Type} [DecidableEq α] (m : List (α × β)) (k : α) :
    List (α × β) :=
  match m with
  | [] => []
  | e :: rest => if e.1 = k then rest else e :: mdel rest k

/-- A roster entry: `{ id: socket.id, name }` from `room:join`. -/
structure Player where
  id : ConnId
  name : String
deriving DecidableEq, Repr

/-- The four phases of `room.game.phase`. -/
inductive Phase where
  | idle
  | choosing
  | guessing
  | revealed
deriving DecidableEq, Repr

/-- `room.game`, as built by `newGameState()` in server.js. -/
structure GameState where
  phase : Phase
  currentTurnId : Option ConnId
  isAcceptingPrompt : Bool
  prompt : String
  targetValue : Option ℚ
  answerText : String
  guesses : List (ConnId × ℚ)
  revealed : Bool
  lastWinners : List ConnId
deriving DecidableEq, Repr

/-- `newGameState()` from server.js. -/
def newGameState : GameState where
  phase := Phase.idle
  currentTurnId := none
  isAcceptingPrompt := false
  prompt := ""
  targetValue := none
  answerText := ""
  guesses := []
  revealed := false
  lastWinners := []

/-- A room from the `rooms` registry: players map, host id, game state and
cumulative scores map.  (The cleanup timer lives outside this structure:
the disconnect handler reports whether cleanup was scheduled.) -/
structure Room where
  players : List (ConnId × Player)
  hostId : Option ConnId
  game : GameState
  scores : List (ConnId × Int)
deriving DecidableEq, Repr

/-- `roomPlayersArray(room)` = `Array.from(room.players.values())`. -/
def roomPlayersArray (room : Room) : List Player :=
  room.players.map Prod.snd

/-- `pickRandomPlayerId(room)`, with the random draw
`Math.floor(Math.random() * arr.length)` supplied as the index `idx`
(reduced mod the length for totality; the caller of interest always has
`idx < arr.length`). -/
def pickRandomPlayerId (room : Room) (idx : Nat) : Option ConnId :=
  let arr := roomPlayersArray room
  if h : arr.length = 0 then none
  else some (arr.get ⟨idx % arr.length, Nat.mod_lt _ (Nat.pos_of_ne_zero h)⟩).id

/-- Acknowledgement sent back over the `ack` callback. -/
inductive Ack where
  | ok
  | fail (reason : String)
deriving DecidableEq, Repr

/-- `room:start` handler: host-only; replaces the game with a fresh
`newGameState()` and keeps the scores; silent no-op for non-hosts. -/
def handleRoomStart (room : Room) (caller : ConnId) : Room :=
  if room.hostId = some caller then { room with game := newGameState }
  else room

/-- `game:startRound` handler: host-only; picks a random chooser, resets
every round field, `isAcceptingPrompt` iff a chooser exists. -/
def handleStartRound (room : Room) (caller : ConnId) (idx : Nat) : Room :=
  if room.hostId = some caller then
    { room with
      game :=
        { phase := Phase.choosing
          currentTurnId := pickRandomPlayerId room idx
          isAcceptingPrompt := (pickRandomPlayerId room idx).isSome
          prompt := ""
          targetValue := none
          answerText := ""
          guesses := []
          revealed := false
          lastWinners := [] } }
  else room

/-- `game:nextTurn` handler: body identical to `game:startRound`. -/
def handleNextTurn (room : Room) (caller : ConnId) (idx : Nat) : Room :=
  if room.hostId = some caller then
    { room with
      game :=
        { phase := Phase.choosing
          currentTurnId := pickRandomPlayerId room idx
          isAcceptingPrompt := (pickRandomPlayerId room idx).isSome
          prompt := ""
          targetValue := none
          answerText := ""
          guesses := []
          revealed := false
          lastWinners := [] } }
  else room

/-- JS `String.prototype.trim`: strip leading and trailing whitespace
(modelled on the character list so that it evaluates by reduction). -/
def jsTrim (s : String) : String :=
  { data := ((s.data.dropWhile Char.isWhitespace).reverse.dropWhile
      Char.isWhitespace).reverse }

/-- JS `s.slice(0, n)`: keep the first `n` characters. -/
def jsSlice (s : String) (n : Nat) : String :=
  { data := s.data.take n }

/-- Result of the synchronous part of `game:setPrompt`, up to the point
where `fetchNumericAnswer` is invoked. -/
inductive PromptStart where
  | rejected (reason : String)
  | pending (prompt : String)
deriving DecidableEq, Repr

/-- The synchronous prefix of the `game:setPrompt` handler: turn check,
trim + `slice(0, 300)`, empty check, then store the prompt and set
`isAcceptingPrompt = false` before the oracle call. -/
def setPromptStart (room : Room) (caller : ConnId) (text : String) :
    Room × PromptStart :=
  let g := room.game
  if g.isAcceptingPrompt ∧ g.currentTurnId = some caller then
    let prompt := jsSlice (jsTrim text) 300
    if prompt = "" then (room, PromptStart.rejected "Prompt is empty")
    else
      ({ room with game := { g with prompt := prompt, isAcceptingPrompt := false } },
       PromptStart.pending prompt)
  else (room, PromptStart.rejected "Not your turn")

/-- The outcome of `fetchNumericAnswer`, treated as a black box:
a finite numeric value with a display string, a result with no usable
finite number, or a thrown error. -/
inductive OracleOutcome where
  | success (value : ℚ) (text : String)
  | noNumber
  | failure
deriving DecidableEq, Repr

/-- The continuation of `game:setPrompt` after `await fetchNumericAnswer`:
it mutates the same game object that is still installed in the room (the
handler does not re-fetch the room or recheck the phase). -/
def setPromptResume (room : Room) (outcome : OracleOutcome) : Room × Ack :=
  let g := room.game
  match outcome with
  | OracleOutcome.noNumber =>
      ({ room with
          game := { g with
            phase := Phase.choosing
            answerText := "No numeric answer found."
            targetValue := none } },
       Ack.fail "No numeric answer found. Try rephrasing (e.g., \"career points per game\").")
  | OracleOutcome.success v t =>
      ({ room with
          game := { g with
            targetValue := some v
            answerText := if t = "" then "Answer: " ++ toString v else t
            phase := Phase.guessing
            guesses := []
            revealed := false } },
       Ack.ok)
  | OracleOutcome.failure =>
      ({ room with game := { g with phase := Phase.choosing } },
       Ack.fail "Error fetching answer.")

/-- The whole `game:setPrompt` handler for runs in which no other event
interleaves with the oracle call. -/
def setPrompt (room : Room) (caller : ConnId) (text : String)
    (outcome : OracleOutcome) : Room × Ack :=
  match setPromptStart room caller text with
  | (r, PromptStart.rejected reason) => (r, Ack.fail reason)
  | (r, PromptStart.pending _) => setPromptResume r outcome

/-- `game:guess` handler: requires phase `guessing` and a finite numeric
value (`none` models a value for which `Number.isFinite` fails);
`guesses.set` overwrites any prior guess of the same connection. -/
def handleGuess (room : Room) (caller : ConnId) (value : Option ℚ) :
    Room × Ack :=
  if room.game.phase = Phase.guessing then
    match value with
    | none => (room, Ack.fail "Guess must be a number")
    | some v =>
        ({ room with
            game := { room.game with guesses := mset room.game.guesses caller v } },
         Ack.ok)
  else (room, Ack.fail "Not accepting guesses")

/-- `Math.min` over a nonempty error list (`0` for the empty list, which
the caller excludes). -/
def minList : List ℚ → ℚ
  | [] => 0
  | e :: rest => rest.foldl min e

/-- The scoring loop of `game:revealAndScore`:
`room.scores.set(sid, (room.scores.get(sid) || 0) + 1)` per winner. -/
def awardWinners (scores : List (ConnId × Int)) (winners : List ConnId) :
    List (ConnId × Int) :=
  winners.foldl (fun sc sid => mset sc sid ((mget sc sid).getD 0 + 1)) scores

/-- `game:revealAndScore` handler: host-only, phase `guessing` only.
Zero guesses: straight to `revealed` with empty winners.  Otherwise
winners are all guesses of minimum absolute error from the target (JS
`guess - null` coerces `null` to `0`, hence `getD 0`), each awarded one
point. -/
def handleRevealAndScore (room : Room) (caller : ConnId) : Room :=
  if room.hostId = some caller ∧ room.game.phase = Phase.guessing then
    let g := room.game
    if g.guesses = [] then
      { room with
        game := { g with phase := Phase.revealed, revealed := true, lastWinners := [] } }
    else
      let t := g.targetValue.getD 0
      let diffs := g.guesses.map (fun e => (e.1, |e.2 - t|))
      let minErr := minList (diffs.map Prod.snd)
      let winners := (diffs.filter (fun d => decide (d.2 = minErr))).map Prod.fst
      { room with
        scores := awardWinners room.scores winners
        game := { g with phase := Phase.revealed, revealed := true, lastWinners := winners } }
  else room

/-- `disconnect` handler.  Returns the updated room together with a flag
that is `true` when `scheduleRoomCleanup` was called (roster became
empty) and `false` when the roster/game snapshots were broadcast. -/
def handleDisconnect (room : Room) (sid : ConnId) : Room × Bool :=
  let players' := mdel room.players sid
  let hostId' :=
    if room.hostId = some sid then players'.head?.map Prod.fst else room.hostId
  let g := room.game
  let g' :=
    if g.currentTurnId = some sid then
      { g with currentTurnId := none, isAcceptingPrompt := false }
    else g
  ({ room with players := players', hostId := hostId', game := g' },
   players'.isEmpty)

/-- A roster entry of an outward snapshot: `{ id, name, isHost }`. -/
structure PlayerView where
  id : ConnId
  name : String
  isHost : Bool
deriving DecidableEq, Repr

/-- A leaderboard row `{ name, score }`. -/
structure ScoreRow where
  name : String
  score : Int
deriving DecidableEq, Repr

/-- `room.players.get(sid)?.name || 'Player'` (JS `||` also replaces an
empty name). -/
def displayName (room : Room) (sid : ConnId) : String :=
  match mget room.players sid with
  | some p => if p.name = "" then "Player" else p.name
  | none => "Player"

/-- `room.players.get(sid)?.name || '(left)'` used by `leaderboardArray`. -/
def scoreName (room : Room) (sid : ConnId) : String :=
  match mget room.players sid with
  | some p => if p.name = "" then "(left)" else p.name
  | none => "(left)"

/-- The comparator `b.score - a.score || a.name.localeCompare(b.name)`
read as a strict "comes before" relation. -/
def rowBefore (a b : ScoreRow) : Bool :=
  decide (b.score < a.score ∨ (a.score = b.score ∧ a.name < b.name))

/-- Insert a row into a list sorted by `rowBefore`. -/
def insertRow (a : ScoreRow) : List ScoreRow → List ScoreRow
  | [] => [a]
  | b :: rest => if rowBefore a b then a :: b :: rest else b :: insertRow a rest

/-- `arr.sort(...)` by the leaderboard comparator. -/
def sortRows (l : List ScoreRow) : List ScoreRow :=
  l.foldr insertRow []

/-- `leaderboardArray(room)` from server.js. -/
def leaderboardArray (room : Room) : List ScoreRow :=
  sortRows (room.scores.map (fun e => ScoreRow.mk (scoreName room e.1) e.2))

/-- `Object.fromEntries`: later occurrences of a key overwrite earlier
ones (the key keeps its first position, as in a JS object). -/
def fromEntries (l : List (String × ℚ)) : List (String × ℚ) :=
  l.foldl (fun acc e => mset acc e.1 e.2) []

/-- The outward `game:state` payload built by `emitGameState`. -/
structure Snapshot where
  players : List PlayerView
  phase : Phase
  currentTurnId : Option ConnId
  isAcceptingPrompt : Bool
  prompt : String
  targetValue : Option ℚ
  answerText : String
  guessesByName : List (String × ℚ)
  revealed : Bool
  leaderboard : List ScoreRow
  lastWinners : List String
deriving DecidableEq, Repr

/-- `emitGameState` from server.js, as the pure snapshot it broadcasts. -/
def emitGameState (room : Room) : Snapshot :=
  let g := room.game
  { players := room.players.map
      (fun e => PlayerView.mk e.2.id e.2.name (decide (room.hostId = some e.2.id)))
    phase := g.phase
    currentTurnId := g.currentTurnId
    isAcceptingPrompt := g.isAcceptingPrompt
    prompt := g.prompt
    targetValue := if g.revealed then g.targetValue else none
    answerText :=
      if g.revealed then g.answerText
      else if g.phase = Phase.guessing then "Answer locked. Guess now!" else ""
    guessesByName := fromEntries (g.guesses.map (fun e => (displayName room e.1, e.2)))
    revealed := g.revealed
    leaderboard := leaderboardArray room
    lastWinners := g.lastWinners.map (displayName room) }

/-- A concrete room in `guessing` phase used to instantiate theorems:
host `"H"`, two roster members sharing the display name `"Alice"`, a
retained guess from a departed connection `"Z"`, one score entry. -/
def roomGuess : Room where
  players := [("H", ⟨"H", "Host"⟩), ("A", ⟨"A", "Alice"⟩), ("B", ⟨"B", "Alice"⟩)]
  hostId := some "H"
  game :=
    { phase := Phase.guessing
      currentTurnId := some "H"
      isAcceptingPrompt := false
      prompt := "How many?"
      targetValue := some 10
      answerText := "It is 10."
      guesses := [("A", 8), ("B", 12), ("Z", 7)]
      revealed := false
      lastWinners := [] }
  scores := [("A", 2)]

/-- A concrete room in `choosing` phase used to instantiate theorems:
host `"A"` is also the current chooser and a prompt is being accepted. -/
def roomChoose : Room where
  players := [("A", ⟨"A", "Ann"⟩), ("B", ⟨"B", "Ben"⟩)]
  hostId := some "A"
  game :=
    { phase := Phase.choosing
      currentTurnId := some "A"
      isAcceptingPrompt := true
      prompt := ""
      targetValue := none
      answerText := ""
      guesses := []
      revealed := false
      lastWinners := [] }
  scores := []

section MapLemmas

variable {α β : Type} [DecidableEq α]

theorem mget_mset_self (m : List (α × β)) (k : α) (v : β) :
    mget (mset m k v) k = some v := by
  induction m with
  | nil => simp [mget, mset]
  | cons e rest ih =>
      by_cases h : e.1 = k
      · simp [mget, mset, h]
      · simp [mget, mset, h, ih]

theorem mget_mset_ne (m : List (α × β)) (k k' : α) (v : β) (h : k' ≠ k) :
    mget (mset m k v) k' = mget m k' := by
  have hk : ¬ k = k' := fun h2 => h h2.symm
  induction m with
  | nil => simp [mget, mset, hk]
  | cons e rest ih =>
      by_cases h1 : e.1 = k
      · simp [mget, mset, h1, hk]
      · by_cases h2 : e.1 = k'
        · simp [mget, mset, h1, h2, h]
        · simp [mget, mset, h1, h2, ih]

theorem mset_keys (m : List (α × β)) (k : α) (v : β) :
    (mset m k v).map Prod.fst =
      if k ∈ m.map Prod.fst then m.map Prod.fst else m.map Prod.fst ++ [k] := by
  induction m with
  | nil => simp [mset]
  | cons e rest ih =>
      by_cases h : e.1 = k
      · simp [mset, h]
      · have hk : k ≠ e.1 := fun h2 => h h2.symm
        by_cases h2 : k ∈ rest.map Prod.fst <;> simp [mset, h, hk, h2, ih]

theorem mset_keys_nodup (m : List (α × β)) (k : α) (v : β)
    (h : (m.map Prod.fst).Nodup) : ((mset m k v).map Prod.fst).Nodup := by
  rw [mset_keys]
  by_cases h2 : k ∈ m.map Prod.fst
  · simpa [h2] using h
  · rw [if_neg h2]
    refine List.Nodup.append h (List.nodup_singleton k) ?_
    intro a ha hb
    rw [List.mem_singleton.mp hb] at ha
    exact h2 ha

theorem mget_eq_some_iff_mem (m : List (α × β)) (k : α) (v : β)
    (h : (m.map Prod.fst).Nodup) : mget m k = some v ↔ (k, v) ∈ m := by
  induction m with
  | nil => simp [mget]
  | cons e rest ih =>
      obtain ⟨a, b⟩ := e
      simp only [List.map_cons, List.nodup_cons] at h
      by_cases h1 : a = k
      · subst h1
        rw [show mget ((a, b) :: rest) a = some b from by simp [mget]]
        constructor
        · intro h2
          injection h2 with h2
          subst h2
          exact List.mem_cons_self _ _
        · intro h2
          rcases List.mem_cons.mp h2 with h3 | h3
          · simp only [Prod.mk.injEq, true_and] at h3
            rw [h3]
          · exact absurd (List.mem_map_of_mem Prod.fst h3) h.1
      · rw [show mget ((a, b) :: rest) k = mget rest k from by simp [mget, h1],
          ih h.2]
        constructor
        · exact fun h2 => List.mem_cons_of_mem _ h2
        · intro h2
          rcases List.mem_cons.mp h2 with h3 | h3
          · exact absurd (congrArg Prod.fst h3).symm h1
          · exact h3

theorem mget_mdel_self (m : List (α × β)) (k : α)
    (h : (m.map Prod.fst).Nodup) : mget (mdel m k) k = none := by
  induction m with
  | nil => simp [mget, mdel]
  | cons e rest ih =>
      obtain ⟨a, b⟩ := e
      simp only [List.map_cons, List.nodup_cons] at h
      by_cases h1 : a = k
      · subst h1
        rw [show mdel ((a, b) :: rest) a = rest from by simp [mdel]]
        cases hg : mget rest a with
        | none => rfl
        | some v =>
            exact absurd
              (List.mem_map_of_mem Prod.fst
                ((mget_eq_some_iff_mem rest a v h.2).mp hg)) h.1
      · simp only [mdel, if_neg h1, mget, ih h.2]

theorem mget_mdel_ne (m : List (α × β)) (k k' : α) (h : k' ≠ k) :
    mget (mdel m k) k' = mget m k' := by
  induction m with
  | nil => simp [mget, mdel]
  | cons e rest ih =>
      by_cases h1 : e.1 = k
      · have he : ¬ e.1 = k' := fun h2 => h (h1.symm.trans h2).symm
        have hk : ¬ k = k' := fun h2 => h h2.symm
        simp [mget, mdel, h1, he, hk]
      · by_cases h2 : e.1 = k'
        · simp [mget, mdel, h1, h2, h]
        · simp [mget, mdel, h1, h2, ih]

theorem mem_mset (m : List (α × β)) (k : α) (v : β) (e : α × β)
    (h : e ∈ mset m k v) : e = (k, v) ∨ e ∈ m := by
  induction m with
  | nil => simpa [mset] using h
  | cons e2 rest ih =>
      by_cases h1 : e2.1 = k
      · rw [mset, if_pos h1] at h
        rcases List.mem_cons.mp h with h2 | h2
        · exact Or.inl h2
        · exact Or.inr (List.mem_cons_of_mem e2 h2)
      · rw [mset, if_neg h1] at h
        rcases List.mem_cons.mp h with h2 | h2
        · refine Or.inr ?_
          rw [h2]
          exact List.mem_cons_self e2 rest
        · rcases ih h2 with h3 | h3
          · exact Or.inl h3
          · exact Or.inr (List.mem_cons_of_mem e2 h3)

theorem key_mem_mset (m : List (α × β)) (k : α) (v : β) :
    k ∈ (mset m k v).map Prod.fst := by
  rw [mset_keys]
  by_cases h : k ∈ m.map Prod.fst <;> simp [h]

theorem key_mem_mset_of_mem (m : List (α × β)) (k k' : α) (v : β)
    (h : k' ∈ m.map Prod.fst) : k' ∈ (mset m k v).map Prod.fst := by
  rw [mset_keys]
  by_cases h2 : k ∈ m.map Prod.fst <;> simp [h2, h]

end MapLemmas

section ScoringLemmas

theorem awardWinners_mget_not_mem (ws : List ConnId) (sc : List (ConnId × Int))
    (sid : ConnId) (h : sid ∉ ws) :
    mget (awardWinners sc ws) sid = mget sc sid := by
  induction ws generalizing sc with
  | nil => rfl
  | cons w ws ih =>
      rw [List.mem_cons, not_or] at h
      rw [show awardWinners sc (w :: ws)
            = awardWinners (mset sc w ((mget sc w).getD 0 + 1)) ws from rfl]
      rw [ih _ h.2, mget_mset_ne _ _ _ _ h.1]

theorem awardWinners_mget_mem (ws : List ConnId) (sc : List (ConnId × Int))
    (sid : ConnId) (hnd : ws.Nodup) (h : sid ∈ ws) :
    (mget (awardWinners sc ws) sid).getD 0 = (mget sc sid).getD 0 + 1 := by
  induction ws generalizing sc with
  | nil => cases h
  | cons w ws ih =>
      rw [List.nodup_cons] at hnd
      rw [show awardWinners sc (w :: ws)
            = awardWinners (mset sc w ((mget sc w).getD 0 + 1)) ws from rfl]
      rcases List.mem_cons.mp h with h1 | h1
      · subst h1
        rw [awardWinners_mget_not_mem _ _ _ hnd.1, mget_mset_self]
        rfl
      · have hne : sid ≠ w := fun h2 => hnd.1 (h2 ▸ h1)
        rw [ih _ hnd.2 h1, mget_mset_ne _ _ _ _ hne]

theorem awardWinners_mono (ws : List ConnId) (sc : List (ConnId × Int))
    (k : ConnId) (v : Int) (h : mget sc k = some v) :
    ∃ v2, mget (awardWinners sc ws) k = some v2 ∧ v ≤ v2 := by
  induction ws generalizing sc v with
  | nil => exact ⟨v, h, le_refl v⟩
  | cons w ws ih =>
      rw [show awardWinners sc (w :: ws)
            = awardWinners (mset sc w ((mget sc w).getD 0 + 1)) ws from rfl]
      by_cases h1 : k = w
      · subst h1
        have h2 : mget (mset sc k ((mget sc k).getD 0 + 1)) k = some (v + 1) := by
          rw [mget_mset_self, h]
          rfl
        obtain ⟨v2, hv2, hle⟩ := ih _ _ h2
        exact ⟨v2, hv2, le_trans (by omega) hle⟩
      · have h2 : mget (mset sc w ((mget sc w).getD 0 + 1)) k = some v := by
          rw [mget_mset_ne _ _ _ _ h1, h]
        exact ih _ _ h2

theorem revealWinners_mem (g : List (ConnId × ℚ)) (t m : ℚ) (sid : ConnId)
    (hnd : (g.map Prod.fst).Nodup) :
    (sid ∈ ((g.map (fun e => (e.1, |e.2 - t|))).filter
        (fun d => decide (d.2 = m))).map Prod.fst ↔
      ∃ v, mget g sid = some v ∧ |v - t| = m) := by
  constructor
  · intro h
    rcases List.mem_map.mp h with ⟨d, hd, hfst⟩
    rcases List.mem_filter.mp hd with ⟨hmem, hp⟩
    rcases List.mem_map.mp hmem with ⟨e, he, hde⟩
    refine ⟨e.2, ?_, ?_⟩
    · rw [mget_eq_some_iff_mem _ _ _ hnd]
      have h1 : e.1 = sid := by rw [← hfst, ← hde]
      rw [← h1]
      exact he
    · have h2 : d.2 = m := of_decide_eq_true hp
      rw [← h2, ← hde]
  · rintro ⟨v, hv, herr⟩
    have h1 : (sid, v) ∈ g := (mget_eq_some_iff_mem _ _ _ hnd).mp hv
    refine List.mem_map.mpr ⟨(sid, |v - t|), ?_, rfl⟩
    refine List.mem_filter.mpr ⟨?_, ?_⟩
    · exact List.mem_map.mpr ⟨(sid, v), h1, rfl⟩
    · exact decide_eq_true herr

theorem revealWinners_nodup (g : List (ConnId × ℚ)) (t m : ℚ)
    (hnd : (g.map Prod.fst).Nodup) :
    (((g.map (fun e => (e.1, |e.2 - t|))).filter
        (fun d => decide (d.2 = m))).map Prod.fst).Nodup := by
  have h1 : ((g.map (fun e => (e.1, |e.2 - t|))).filter
      (fun d => decide (d.2 = m))).Sublist (g.map (fun e => (e.1, |e.2 - t|))) :=
    List.filter_sublist _
  have h2 := h1.map Prod.fst
  have h3 : (g.map (fun e => (e.1, |e.2 - t|))).map Prod.fst = g.map Prod.fst := by
    rw [List.map_map]
    rfl
  exact List.Nodup.sublist (h3 ▸ h2) hnd

end ScoringLemmas

section SnapshotLemmas

theorem foldl_mset_keys_nodup {α β : Type} [DecidableEq α]
    (l acc : List (α × β)) (h : (acc.map Prod.fst).Nodup) :
    ((l.foldl (fun a e => mset a e.1 e.2) acc).map Prod.fst).Nodup := by
  induction l generalizing acc with
  | nil => exact h
  | cons e l ih => exact ih _ (mset_keys_nodup _ _ _ h)

theorem foldl_mset_key_mem_acc {α β : Type} [DecidableEq α]
    (l acc : List (α × β)) (k : α) (h : k ∈ acc.map Prod.fst) :
    k ∈ (l.foldl (fun a e => mset a e.1 e.2) acc).map Prod.fst := by
  induction l generalizing acc with
  | nil => exact h
  | cons e l ih => exact ih _ (key_mem_mset_of_mem _ _ _ _ h)

theorem foldl_mset_key_mem {α β : Type} [DecidableEq α]
    (l acc : List (α × β)) (k : α) (v : β) (h : (k, v) ∈ l) :
    k ∈ (l.foldl (fun a e => mset a e.1 e.2) acc).map Prod.fst := by
  induction l generalizing acc with
  | nil => cases h
  | cons e l ih =>
      rcases List.mem_cons.mp h with h1 | h1
      · have hk : e.1 = k := (congrArg Prod.fst h1).symm
        refine foldl_mset_key_mem_acc l _ k ?_
        rw [← hk]
        exact key_mem_mset acc e.1 e.2
      · exact ih _ h1

theorem mem_foldl_mset {α β : Type} [DecidableEq α]
    (l acc : List (α × β)) (e : α × β)
    (h : e ∈ l.foldl (fun a x => mset a x.1 x.2) acc) : e ∈ acc ∨ e ∈ l := by
  induction l generalizing acc with
  | nil => exact Or.inl h
  | cons x l ih =>
      rcases ih _ h with h1 | h1
      · rcases mem_mset _ _ _ _ h1 with h2 | h2
        · refine Or.inr ?_
          rw [h2, Prod.mk.eta]
          exact List.mem_cons_self x l
        · exact Or.inl h2
      · exact Or.inr (List.mem_cons_of_mem x h1)

end SnapshotLemmas

/-- C3: while `revealed = false` the outward snapshot carries `targetValue
= null` and, for `answerText`, the fixed placeholder during `guessing` and
the empty string otherwise; two states that differ only in `targetValue`
and `answerText` produce identical snapshots. -/
theorem claim_C3 (room : Room) (tv : Option ℚ) (txt : String)
    (h : room.game.revealed = false) :
    (emitGameState room).targetValue = none ∧
    (emitGameState room).answerText =
      (if room.game.phase = Phase.guessing then "Answer locked. Guess now!" else "") ∧
    emitGameState
        { room with game := { room.game with targetValue := tv, answerText := txt } }
      = emitGameState room := by
  refine ⟨?_, ?_, ?_⟩ <;> simp [emitGameState, h, leaderboardArray, scoreName, displayName]

/-- Witness for C3 at the concrete room `roomGuess`. -/
theorem claim_C3_witness :
    roomGuess.game.revealed = false ∧
    ((emitGameState roomGuess).targetValue = none ∧
     (emitGameState roomGuess).answerText =
       (if roomGuess.game.phase = Phase.guessing then "Answer locked. Guess now!" else "") ∧
     emitGameState
         { roomGuess with
            game := { roomGuess.game with targetValue := some 99, answerText := "secret" } }
       = emitGameState roomGuess) :=
  ⟨rfl, claim_C3 roomGuess (some 99) "secret" rfl⟩

/-- C4: `game:setPrompt` is rejected with "Not your turn" unless
`isAcceptingPrompt` holds and the caller is the current chooser; the input
is trimmed then truncated to 300 characters and rejected as empty when the
result is empty; an accepted submission stores the prompt and sets
`isAcceptingPrompt := false` before the oracle is invoked, so a second
submission while the oracle call is outstanding is rejected. -/
theorem claim_C4 (room : Room) (caller : ConnId) (text text2 : String) :
    (¬ (room.game.isAcceptingPrompt = true ∧ room.game.currentTurnId = some caller) →
      setPromptStart room caller text = (room, PromptStart.rejected "Not your turn")) ∧
    (room.game.isAcceptingPrompt = true →
      room.game.currentTurnId = some caller →
      ((jsSlice (jsTrim text) 300 = "" →
          setPromptStart room caller text = (room, PromptStart.rejected "Prompt is empty")) ∧
       (jsSlice (jsTrim text) 300 ≠ "" →
          (setPromptStart room caller text).2 = PromptStart.pending (jsSlice (jsTrim text) 300) ∧
          (setPromptStart room caller text).1.game.prompt = jsSlice (jsTrim text) 300 ∧
          (setPromptStart room caller text).1.game.isAcceptingPrompt = false ∧
          setPromptStart (setPromptStart room caller text).1 caller text2
            = ((setPromptStart room caller text).1, PromptStart.rejected "Not your turn")))) := by
  constructor
  · intro h
    simp [setPromptStart, h]
  · intro h1 h2
    constructor
    · intro h3
      simp [setPromptStart, h1, h2, h3]
    · intro h3
      refine ⟨?_, ?_, ?_, ?_⟩ <;> simp [setPromptStart, h1, h2, h3]

/-- Witness for C4: an accepted submission at `roomChoose`, followed by a
rejected resubmission. -/
theorem claim_C4_witness :
    jsSlice (jsTrim "  hello  ") 300 ≠ "" ∧
    ((setPromptStart roomChoose "A" "  hello  ").2
        = PromptStart.pending (jsSlice (jsTrim "  hello  ") 300) ∧
     (setPromptStart roomChoose "A" "  hello  ").1.game.prompt
        = jsSlice (jsTrim "  hello  ") 300 ∧
     (setPromptStart roomChoose "A" "  hello  ").1.game.isAcceptingPrompt = false ∧
     setPromptStart (setPromptStart roomChoose "A" "  hello  ").1 "A" "again"
        = ((setPromptStart roomChoose "A" "  hello  ").1,
           PromptStart.rejected "Not your turn")) :=
  ⟨by decide, ((claim_C4 roomChoose "A" "  hello  " "again").2 rfl rfl).2 (by decide)⟩

/-- C5: `game:guess` is rejected outside `guessing` phase and for a
non-finite value; an accepted guess overwrites the caller's prior guess
(key set grows by at most the caller, other entries untouched, at most
one entry per connection). -/
theorem claim_C5 (room : Room) (caller other : ConnId) (value : Option ℚ) (v : ℚ) :
    (room.game.phase ≠ Phase.guessing →
      handleGuess room caller value = (room, Ack.fail "Not accepting guesses")) ∧
    (room.game.phase = Phase.guessing →
      handleGuess room caller none = (room, Ack.fail "Guess must be a number")) ∧
    (room.game.phase = Phase.guessing →
      mget (handleGuess room caller (some v)).1.game.guesses caller = some v ∧
      (other ≠ caller →
        mget (handleGuess room caller (some v)).1.game.guesses other
          = mget room.game.guesses other) ∧
      ((handleGuess room caller (some v)).1.game.guesses.map Prod.fst
        = (if caller ∈ room.game.guesses.map Prod.fst then
             room.game.guesses.map Prod.fst
           else room.game.guesses.map Prod.fst ++ [caller])) ∧
      ((room.game.guesses.map Prod.fst).Nodup →
        ((handleGuess room caller (some v)).1.game.guesses.map Prod.fst).Nodup)) := by
  refine ⟨?_, ?_, ?_⟩
  · intro h
    simp [handleGuess, h]
  · intro h
    simp [handleGuess, h]
  · intro h
    have hred : (handleGuess room caller (some v)).1.game.guesses
        = mset room.game.guesses caller v := by
      simp [handleGuess, h]
    rw [hred]
    exact ⟨mget_mset_self _ _ _, fun hne => mget_mset_ne _ _ _ _ hne,
      mset_keys _ _ _, fun hnd => mset_keys_nodup _ _ _ hnd⟩

/-- Witness for C5: an accepted guess by `"B"` at `roomGuess` overwrites
the prior guess of `"B"` and leaves the guess of `"A"` unchanged. -/
theorem claim_C5_witness :
    roomGuess.game.phase = Phase.guessing ∧
    mget (handleGuess roomGuess "B" (some 5)).1.game.guesses "B" = some 5 ∧
    mget (handleGuess roomGuess "B" (some 5)).1.game.guesses "A"
      = mget roomGuess.game.guesses "A" :=
  ⟨rfl, ((claim_C5 roomGuess "B" "A" none 5).2.2 rfl).1,
   ((claim_C5 roomGuess "B" "A" none 5).2.2 rfl).2.1 (by decide)⟩

/-- C2 (counterexample to the claim as stated): when the oracle call
throws, the catch branch of `game:setPrompt` does NOT set `answerText` to
an explanatory placeholder — at `roomChoose` it stays the empty string
(and in particular is not the placeholder the no-number branch writes),
even though the failure is acknowledged. -/
theorem claim_C2_counterexample :
    (setPrompt roomChoose "A" "How many moons?" OracleOutcome.failure).1.game.answerText
      = "" ∧
    (setPrompt roomChoose "A" "How many moons?" OracleOutcome.failure).1.game.answerText
      ≠ "No numeric answer found." ∧
    (setPrompt roomChoose "A" "How many moons?" OracleOutcome.failure).2
      = Ack.fail "Error fetching answer." := by
  decide

/-- C2 (amended): for every accepted `setPrompt` whose oracle interaction
fails, the round ends in `choosing` with `isAcceptingPrompt = false` and
an error acknowledgement, never reaching `guessing`; `answerText` is set
to the placeholder and `targetValue` to null in the no-usable-number case
only — in the thrown-error case both are left unchanged. -/
theorem claim_C2 (room : Room) (caller : ConnId) (text : String)
    (hacc : room.game.isAcceptingPrompt = true)
    (hturn : room.game.currentTurnId = some caller)
    (hne : ¬ jsSlice (jsTrim text) 300 = "") :
    ((setPrompt room caller text OracleOutcome.noNumber).1.game.phase = Phase.choosing ∧
     (setPrompt room caller text OracleOutcome.noNumber).1.game.isAcceptingPrompt = false ∧
     (setPrompt room caller text OracleOutcome.noNumber).1.game.answerText
        = "No numeric answer found." ∧
     (setPrompt room caller text OracleOutcome.noNumber).1.game.targetValue = none ∧
     (setPrompt room caller text OracleOutcome.noNumber).2
        = Ack.fail "No numeric answer found. Try rephrasing (e.g., \"career points per game\").") ∧
    ((setPrompt room caller text OracleOutcome.failure).1.game.phase = Phase.choosing ∧
     (setPrompt room caller text OracleOutcome.failure).1.game.isAcceptingPrompt = false ∧
     (setPrompt room caller text OracleOutcome.failure).1.game.answerText
        = room.game.answerText ∧
     (setPrompt room caller text OracleOutcome.failure).1.game.targetValue
        = room.game.targetValue ∧
     (setPrompt room caller text OracleOutcome.failure).2
        = Ack.fail "Error fetching answer.") := by
  refine ⟨?_, ?_⟩ <;>
    simp [setPrompt, setPromptStart, setPromptResume, hacc, hturn, hne]

/-- Witness for C2 (amended) at `roomChoose`. -/
theorem claim_C2_witness :
    roomChoose.game.isAcceptingPrompt = true ∧
    roomChoose.game.currentTurnId = some "A" ∧
    ¬ jsSlice (jsTrim "year?") 300 = "" ∧
    (setPrompt roomChoose "A" "year?" OracleOutcome.noNumber).1.game.phase
      = Phase.choosing :=
  ⟨rfl, rfl, by decide,
   ((claim_C2 roomChoose "A" "year?" rfl rfl (by decide)).1).1⟩

/-- C1: a host `game:revealAndScore` in `guessing` phase with zero guesses
goes straight to `revealed` with empty winners and untouched scores;
otherwise the winners are exactly the connections whose absolute error
equals the minimum, each winner's cumulative score grows by exactly one,
and every non-winner's score entry is unchanged, with the phase `revealed`
and the reveal flag set. -/
theorem claim_C1 (room : Room) (host : ConnId) (t : ℚ)
    (hhost : room.hostId = some host)
    (hphase : room.game.phase = Phase.guessing)
    (htgt : room.game.targetValue = some t)
    (hkeys : (room.game.guesses.map Prod.fst).Nodup) :
    (room.game.guesses = [] →
      (handleRevealAndScore room host).game.phase = Phase.revealed ∧
      (handleRevealAndScore room host).game.revealed = true ∧
      (handleRevealAndScore room host).game.lastWinners = [] ∧
      (handleRevealAndScore room host).scores = room.scores) ∧
    (room.game.guesses ≠ [] →
      (handleRevealAndScore room host).game.phase = Phase.revealed ∧
      (handleRevealAndScore room host).game.revealed = true ∧
      (∀ sid, sid ∈ (handleRevealAndScore room host).game.lastWinners ↔
        ∃ v, mget room.game.guesses sid = some v ∧
          |v - t| = minList (room.game.guesses.map (fun e => |e.2 - t|))) ∧
      (∀ sid, sid ∈ (handleRevealAndScore room host).game.lastWinners →
        (mget (handleRevealAndScore room host).scores sid).getD 0
          = (mget room.scores sid).getD 0 + 1) ∧
      (∀ sid, sid ∉ (handleRevealAndScore room host).game.lastWinners →
        mget (handleRevealAndScore room host).scores sid = mget room.scores sid)) := by
  constructor
  · intro hg
    refine ⟨?_, ?_, ?_, ?_⟩ <;> simp [handleRevealAndScore, hhost, hphase, hg]
  · intro hg
    have hsnd : (room.game.guesses.map (fun e => (e.1, |e.2 - t|))).map Prod.snd
        = room.game.guesses.map (fun e => |e.2 - t|) := by
      rw [List.map_map]
      rfl
    have hres : handleRevealAndScore room host =
        { room with
          scores := awardWinners room.scores
            (((room.game.guesses.map (fun e => (e.1, |e.2 - t|))).filter
              (fun d => decide (d.2
                = minList (room.game.guesses.map (fun e => |e.2 - t|))))).map Prod.fst)
          game := { room.game with
            phase := Phase.revealed
            revealed := true
            lastWinners :=
              ((room.game.guesses.map (fun e => (e.1, |e.2 - t|))).filter
                (fun d => decide (d.2
                  = minList (room.game.guesses.map (fun e => |e.2 - t|))))).map Prod.fst } } := by
      simp [handleRevealAndScore, hhost, hphase, hg, htgt, hsnd]
    have hwnd := revealWinners_nodup room.game.guesses t
      (minList (room.game.guesses.map (fun e => |e.2 - t|))) hkeys
    refine ⟨by rw [hres], by rw [hres], ?_, ?_, ?_⟩
    · intro sid
      rw [hres]
      exact revealWinners_mem room.game.guesses t _ sid hkeys
    · intro sid hw
      rw [hres] at hw ⊢
      exact awardWinners_mget_mem _ _ _ hwnd hw
    · intro sid hw
      rw [hres] at hw ⊢
      exact awardWinners_mget_not_mem _ _ _ hw

/-- Witness for C1 at `roomGuess`: guesses 8, 12 and 7 against target 10
tie `"A"` and `"B"` at error 2, and `"A"`'s score rises from 2 to 3. -/
theorem claim_C1_witness :
    roomGuess.hostId = some "H" ∧
    roomGuess.game.phase = Phase.guessing ∧
    roomGuess.game.targetValue = some 10 ∧
    (mget (handleRevealAndScore roomGuess "H").scores "A").getD 0
      = (mget roomGuess.scores "A").getD 0 + 1 :=
  ⟨rfl, rfl, rfl, by
    have h := (claim_C1 roomGuess "H" 10 rfl rfl rfl (by decide)).2 (by decide)
    exact h.2.2.2.1 "A" (by with_unfolding_all decide)⟩

/-- C6: `game:startRound` and `game:nextTurn` are identical: a silent
no-op for non-hosts; for the host they set phase `choosing`, pick the
chooser from the roster via the random index (none exactly when the
roster is empty, and every index below the roster length selects the
member at that index), clear every round field, set `isAcceptingPrompt`
iff a chooser was selected, and leave roster, host and scores unchanged. -/
theorem claim_C6 (room : Room) (caller : ConnId) (idx : Nat) :
    (room.hostId ≠ some caller →
      handleStartRound room caller idx = room ∧ handleNextTurn room caller idx = room) ∧
    (room.hostId = some caller →
      handleNextTurn room caller idx = handleStartRound room caller idx ∧
      (handleStartRound room caller idx).players = room.players ∧
      (handleStartRound room caller idx).hostId = room.hostId ∧
      (handleStartRound room caller idx).scores = room.scores ∧
      (handleStartRound room caller idx).game.phase = Phase.choosing ∧
      (handleStartRound room caller idx).game.currentTurnId
        = pickRandomPlayerId room idx ∧
      (handleStartRound room caller idx).game.isAcceptingPrompt
        = (pickRandomPlayerId room idx).isSome ∧
      (handleStartRound room caller idx).game.prompt = "" ∧
      (handleStartRound room caller idx).game.targetValue = none ∧
      (handleStartRound room caller idx).game.answerText = "" ∧
      (handleStartRound room caller idx).game.guesses = [] ∧
      (handleStartRound room caller idx).game.revealed = false ∧
      (handleStartRound room caller idx).game.lastWinners = [] ∧
      (room.players = [] ↔ pickRandomPlayerId room idx = none) ∧
      (∀ j : Nat, ∀ hj : j < (roomPlayersArray room).length,
        pickRandomPlayerId room j = some (((roomPlayersArray room).get ⟨j, hj⟩).id))) := by
  constructor
  · intro h
    constructor <;> simp [handleStartRound, handleNextTurn, h]
  · intro h
    refine ⟨rfl, ?_, ?_, ?_, ?_, ?_, ?_, ?_, ?_, ?_, ?_, ?_, ?_, ?_, ?_⟩ <;>
      try simp [handleStartRound, h]
    · constructor
      · intro h2
        simp [pickRandomPlayerId, roomPlayersArray, h2]
      · intro h2
        by_contra h3
        have h4 : (roomPlayersArray room).length ≠ 0 := by
          simpa [roomPlayersArray, List.length_eq_zero] using h3
        simp [pickRandomPlayerId, h4] at h2
    · intro j hj
      have h4 : (roomPlayersArray room).length ≠ 0 := Nat.not_eq_zero_of_lt hj
      simp [pickRandomPlayerId, h4, Nat.mod_eq_of_lt hj]

/-- Witness for C6: a non-host call leaves `roomChoose` unchanged, and a
host call moves it to `choosing`. -/
theorem claim_C6_witness :
    roomChoose.hostId ≠ some "Z" ∧
    handleStartRound roomChoose "Z" 0 = roomChoose ∧
    roomChoose.hostId = some "A" ∧
    (handleStartRound roomChoose "A" 1).game.phase = Phase.choosing :=
  ⟨by decide, ((claim_C6 roomChoose "Z" 0).1 (by decide)).1, rfl,
   ((claim_C6 roomChoose "A" 1).2 rfl).2.2.2.2.1⟩

/-- C7: a disconnect removes the player from the roster; if the departing
player was host, the host becomes the first remaining roster entry in
insertion order (null when the roster emptied); if the departing player
was the chooser, `currentTurnId` is cleared and `isAcceptingPrompt` set
false with every other round field untouched; cleanup is scheduled
instead of broadcasting exactly when the roster became empty. -/
theorem claim_C7 (room : Room) (sid : ConnId)
    (hkeys : (room.players.map Prod.fst).Nodup) :
    (handleDisconnect room sid).1.players = mdel room.players sid ∧
    mget (handleDisconnect room sid).1.players sid = none ∧
    (room.hostId = some sid →
      (handleDisconnect room sid).1.hostId
        = (mdel room.players sid).head?.map Prod.fst) ∧
    (room.hostId ≠ some sid → (handleDisconnect room sid).1.hostId = room.hostId) ∧
    (room.game.currentTurnId = some sid →
      (handleDisconnect room sid).1.game.currentTurnId = none ∧
      (handleDisconnect room sid).1.game.isAcceptingPrompt = false ∧
      (handleDisconnect room sid).1.game.phase = room.game.phase ∧
      (handleDisconnect room sid).1.game.prompt = room.game.prompt ∧
      (handleDisconnect room sid).1.game.targetValue = room.game.targetValue ∧
      (handleDisconnect room sid).1.game.answerText = room.game.answerText ∧
      (handleDisconnect room sid).1.game.guesses = room.game.guesses ∧
      (handleDisconnect room sid).1.game.revealed = room.game.revealed ∧
      (handleDisconnect room sid).1.game.lastWinners = room.game.lastWinners) ∧
    (room.game.currentTurnId ≠ some sid →
      (handleDisconnect room sid).1.game = room.game) ∧
    (handleDisconnect room sid).1.scores = room.scores ∧
    ((handleDisconnect room sid).2 = true ↔ mdel room.players sid = []) := by
  refine ⟨rfl, ?_, ?_, ?_, ?_, ?_, rfl, ?_⟩
  · exact mget_mdel_self _ _ hkeys
  · intro h
    simp [handleDisconnect, h]
  · intro h
    simp [handleDisconnect, h]
  · intro h
    refine ⟨?_, ?_, ?_, ?_, ?_, ?_, ?_, ?_, ?_⟩ <;> simp [handleDisconnect, h]
  · intro h
    simp [handleDisconnect, h]
  · simp [handleDisconnect, List.isEmpty_iff]

/-- Witness for C7: the host and chooser `"H"` disconnects from
`roomGuess`; host failover goes to `"A"`, the turn is cleared and the
guesses survive. -/
theorem claim_C7_witness :
    (roomGuess.players.map Prod.fst).Nodup ∧
    (handleDisconnect roomGuess "H").1.hostId = some "A" ∧
    (handleDisconnect roomGuess "H").1.game.currentTurnId = none ∧
    (handleDisconnect roomGuess "H").1.game.guesses = roomGuess.game.guesses :=
  ⟨by decide,
   by
    have h := (claim_C7 roomGuess "H" (by decide)).2.2.1 rfl
    rw [h]
    decide,
   ((claim_C7 roomGuess "H" (by decide)).2.2.2.2.1 rfl).1,
   ((claim_C7 roomGuess "H" (by decide)).2.2.2.2.1 rfl).2.2.2.2.2.2.1⟩

/-- C8 (frame): no operation other than `game:revealAndScore` touches the
scores map — the room-level reset, `startRound`, `nextTurn`, the whole
`setPrompt` path, its oracle continuation alone, `guess` and `disconnect`
leave `scores` equal — and `revealAndScore` never removes or decreases an
existing entry. -/
theorem claim_C8 (room : Room) (caller sid : ConnId) (idx : Nat) (text : String)
    (outcome : OracleOutcome) (value : Option ℚ) :
    (handleRoomStart room caller).scores = room.scores ∧
    (handleStartRound room caller idx).scores = room.scores ∧
    (handleNextTurn room caller idx).scores = room.scores ∧
    (setPrompt room caller text outcome).1.scores = room.scores ∧
    (setPromptResume room outcome).1.scores = room.scores ∧
    (handleGuess room caller value).1.scores = room.scores ∧
    (handleDisconnect room sid).1.scores = room.scores ∧
    (∀ k v, mget room.scores k = some v →
      ∃ v2, mget (handleRevealAndScore room caller).scores k = some v2 ∧ v ≤ v2) := by
  have hresume : ∀ rm : Room, (setPromptResume rm outcome).1.scores = rm.scores := by
    intro rm
    cases outcome <;> simp [setPromptResume]
  have hstart : (setPromptStart room caller text).1.scores = room.scores := by
    by_cases h : room.game.isAcceptingPrompt = true ∧ room.game.currentTurnId = some caller
    · by_cases h2 : jsSlice (jsTrim text) 300 = "" <;> simp [setPromptStart, h, h2]
    · simp [setPromptStart, h]
  refine ⟨?_, ?_, ?_, ?_, hresume room, ?_, rfl, ?_⟩
  · by_cases h : room.hostId = some caller <;> simp [handleRoomStart, h]
  · by_cases h : room.hostId = some caller <;> simp [handleStartRound, h]
  · by_cases h : room.hostId = some caller <;> simp [handleNextTurn, h]
  · unfold setPrompt
    rcases hs : setPromptStart room caller text with ⟨r, sres⟩
    have hr : r.scores = room.scores := by
      rw [hs] at hstart
      exact hstart
    cases sres with
    | rejected reason => simpa using hr
    | pending p =>
        simp only []
        rw [hresume r, hr]
  · by_cases h : room.game.phase = Phase.guessing
    · cases value with
      | none => simp [handleGuess, h]
      | some v => simp [handleGuess, h]
    · simp [handleGuess, h]
  · intro k v hv
    have hcases : ∃ ws, (handleRevealAndScore room caller).scores
        = awardWinners room.scores ws := by
      unfold handleRevealAndScore
      split
      · dsimp only
        split
        · exact ⟨[], rfl⟩
        · exact ⟨_, rfl⟩
      · exact ⟨[], rfl⟩
    rcases hcases with ⟨ws, h⟩
    rw [h]
    exact awardWinners_mono ws _ k v hv

/-- Witness for C8 at `roomGuess`: the existing score entry of `"A"` is
still present and not decreased after a reveal. -/
theorem claim_C8_witness :
    mget roomGuess.scores "A" = some 2 ∧
    ∃ v2, mget (handleRevealAndScore roomGuess "H").scores "A" = some v2 ∧ (2 : Int) ≤ v2 :=
  ⟨rfl,
   (claim_C8 roomGuess "H" "Z" 0 "t" OracleOutcome.noNumber none).2.2.2.2.2.2.2 "A" 2 rfl⟩

/-- C9: the claim says the resumed `setPrompt` continuation rechecks room
and phase validity and never moves a round to `guessing` for a changed
chooser.  The code does not recheck: starting from `roomChoose` with
chooser `"A"`, an accepted prompt followed by a host `nextTurn` (which
picks the new chooser `"B"` and clears the prompt) and then the oracle
success continuation leaves the round in `guessing` with chooser `"B"`,
an empty prompt and the stale target 42. -/
theorem claim_C9_code_bug :
    (setPromptStart roomChoose "A" "How many moons?").2
      = PromptStart.pending "How many moons?" ∧
    (setPromptResume
        (handleNextTurn (setPromptStart roomChoose "A" "How many moons?").1 "A" 1)
        (OracleOutcome.success 42 "It is 42.")).1.game.phase = Phase.guessing ∧
    (setPromptResume
        (handleNextTurn (setPromptStart roomChoose "A" "How many moons?").1 "A" 1)
        (OracleOutcome.success 42 "It is 42.")).1.game.currentTurnId = some "B" ∧
    (setPromptResume
        (handleNextTurn (setPromptStart roomChoose "A" "How many moons?").1 "A" 1)
        (OracleOutcome.success 42 "It is 42.")).1.game.prompt = "" ∧
    (setPromptResume
        (handleNextTurn (setPromptStart roomChoose "A" "How many moons?").1 "A" 1)
        (OracleOutcome.success 42 "It is 42.")).1.game.targetValue = some 42 := by
  with_unfolding_all decide

/-- C10: outward snapshots key guesses by display name: the keys of
`guessesByName` are pairwise distinct (so two roster members sharing a
trimmed name contribute at most one entry, whose value is one of the
submitted guesses under that name), every guesser's display name occurs
as a key, every value comes from some guess mapped to that name, and a
guess from a connection absent from the roster appears under the
fallback name "Player". -/
theorem claim_C10 (room : Room) :
    ((emitGameState room).guessesByName.map Prod.fst).Nodup ∧
    (∀ sid v, (sid, v) ∈ room.game.guesses →
      displayName room sid ∈ (emitGameState room).guessesByName.map Prod.fst) ∧
    (∀ n w, (n, w) ∈ (emitGameState room).guessesByName →
      ∃ sid, (sid, w) ∈ room.game.guesses ∧ displayName room sid = n) ∧
    (∀ sid v, (sid, v) ∈ room.game.guesses → mget room.players sid = none →
      "Player" ∈ (emitGameState room).guessesByName.map Prod.fst) := by
  have hred : (emitGameState room).guessesByName
      = fromEntries (room.game.guesses.map (fun e => (displayName room e.1, e.2))) := rfl
  rw [hred]
  refine ⟨?_, ?_, ?_, ?_⟩
  · exact foldl_mset_keys_nodup _ [] (by simp)
  · intro sid v h
    exact foldl_mset_key_mem _ [] _ v (List.mem_map.mpr ⟨(sid, v), h, rfl⟩)
  · intro n w h
    rcases mem_foldl_mset _ [] _ h with h1 | h1
    · cases h1
    · rcases List.mem_map.mp h1 with ⟨e, he, heq⟩
      refine ⟨e.1, ?_, (congrArg Prod.fst heq)⟩
      have hw : e.2 = w := congrArg Prod.snd heq
      rw [← hw, Prod.mk.eta]
      exact he
  · intro sid v h hnone
    have hname : displayName room sid = "Player" := by
      simp [displayName, hnone]
    have := foldl_mset_key_mem
      (room.game.guesses.map (fun e => (displayName room e.1, e.2))) [] _ v
      (List.mem_map.mpr ⟨(sid, v), h, rfl⟩)
    rwa [hname] at this

/-- Witness for C10: in `roomGuess` the guess of the departed connection
`"Z"` appears under the key "Player". -/
theorem claim_C10_witness :
    (("Z", (7 : ℚ)) ∈ roomGuess.game.guesses) ∧
    mget roomGuess.players "Z" = none ∧
    "Player" ∈ (emitGameState roomGuess).guessesByName.map Prod.fst :=
  ⟨by decide, rfl, (claim_C10 roomGuess).2.2.2 "Z" 7 (by decide) rfl⟩

end RoomLobby
